import Mathlib

set_option maxHeartbeats 1000000

/-!
Shallow embedding of the cityImage repository's transport network and barrier
modules (`src/cityImage/transport_network.py`, `src/cityImage/barriers.py`).

Geometric primitives (shapely operations such as `buffer`, `intersects`,
`touches`, `interpolate`, `nearest_points`) are external library calls; they
are abstracted into a `GeomCtx` record of opaque operations over an opaque
geometry type `G`, so that every embedded repository function stays
executable once a concrete context is supplied.  Tables (GeoDataFrames) are
embedded as lists of records; the pandas index of the node table equals
`nodeID` and the index of the edge table equals `edgeID`, which the source
maintains by construction (`nodes_gdf.index = nodes_gdf['nodeID']`,
`edges_gdf['edgeID'] = edges_gdf.index`).

Helpers imported by `transport_network.py` from modules that are not part of
the sources (`utilities.distance_geometry_gdf`, `split_line_at_interpolation`,
`clean.correct_edges`, `clean.clean_network`, `clean.duplicate_nodes`) are
modelled from the specification; each such definition carries a doc comment
starting with `Modelled from the spec:`.
-/

/-- Opaque interface to the planar-geometry operations used by the code.
Each field models one shapely primitive applied by the repository. -/
structure GeomCtx (G : Type) where
  /-- `a.distance b` -/
  dist : G → G → ℚ
  /-- `g.length` -/
  length : G → ℚ
  /-- `g.buffer r` -/
  buffer : G → ℚ → G
  /-- `a.intersects b` -/
  intersects : G → G → Bool
  /-- `a.touches b` -/
  touches : G → G → Bool
  /-- `g.interpolate(0.5, normalized=True)` : the midpoint of a line -/
  interpolateMid : G → G
  /-- `nearest_points(p, g)[1]` : the point of `g` nearest to `p` -/
  nearestPointOn : G → G → G
  /-- `LineString([p, q])` -/
  segment : G → G → G
  /-- bounding-box test backing the RTree spatial index
  (`sindex.intersection(bounds)` candidate retrieval) -/
  bboxIntersects : G → G → Bool
  /-- `polygonize_full(g)[0][0]` : the area enclosed by a boundary -/
  polygonize : G → G
  /-- centroid of the union of two point geometries (the midpoint) -/
  centroid2 : G → G → G
  /-- `split_line_at_interpolation(p, g)` : the two half lines and the
  interpolated split point of line `g` nearest to point `p` -/
  splitAt : G → G → (G × G) × G
  /-- update a line's end coordinates to the positions of its two endpoint
  nodes (used to model `correct_edges`) -/
  alignEnds : G → G → G → G
  /-- `g.coords[0]` -/
  firstCoord : G → ℚ × ℚ
  /-- `list(g.coords)` -/
  coords : G → List (ℚ × ℚ)

/-- A row of the node table: `(nodeID, geometry, x, y, stationID, name)`.
`stationID = 999999` is the "not a station anchor" sentinel. -/
structure Node (G : Type) where
  nodeID : Nat
  geometry : G
  x : ℚ
  y : ℚ
  stationID : Nat
  name : Option String
  deriving Repr, DecidableEq

/-- A row of the edge table: `(edgeID, u, v, geometry)`. -/
structure Edge (G : Type) where
  edgeID : Nat
  u : Nat
  v : Nat
  geometry : G
  deriving Repr, DecidableEq

/-- A row of the barrier table: `(barrierID, type, geometry)`. -/
structure Barrier (G : Type) where
  barrierID : Nat
  btype : String
  geometry : G
  deriving Repr, DecidableEq

/-- A row of the station table handed to `assign_stations_to_nodes`:
the station's index (`row.Index`), its point geometry and its name field. -/
structure Station (G : Type) where
  sIx : Nat
  geometry : G
  sname : Option String
  deriving Repr, DecidableEq

def nodeIDs {G : Type} (nodes : List (Node G)) : List Nat :=
  nodes.map (·.nodeID)

def edgeIDs {G : Type} (edges : List (Edge G)) : List Nat :=
  edges.map (·.edgeID)

/-- `nodes_gdf.loc[i]` on a table indexed by `nodeID`. -/
def findNode {G : Type} (nodes : List (Node G)) (i : Nat) : Option (Node G) :=
  nodes.find? (fun n => n.nodeID = i)

/-- `edges_gdf.loc[i]` on a table indexed by `edgeID`. -/
def findEdge {G : Type} (edges : List (Edge G)) (i : Nat) : Option (Edge G) :=
  edges.find? (fun e => e.edgeID = i)

def geomOfNode {G : Type} [Inhabited G] (nodes : List (Node G)) (i : Nat) : G :=
  ((findNode nodes i).map (·.geometry)).getD default

def geomOfEdge {G : Type} [Inhabited G] (edges : List (Edge G)) (i : Nat) : G :=
  ((findEdge edges i).map (·.geometry)).getD default

/-- `nodes_gdf.loc[i]['stationID']`; absent rows yield the sentinel. -/
def stationIDof {G : Type} (nodes : List (Node G)) (i : Nat) : Nat :=
  ((findNode nodes i).map (·.stationID)).getD 999999

/-- `nodes_gdf.loc[i]['name']`. -/
def nameOfNode {G : Type} (nodes : List (Node G)) (i : Nat) : Option String :=
  ((findNode nodes i).map (·.name)).getD none

/-- `nodes_gdf.index.max()` (the index equals `nodeID`). -/
def maxNodeID {G : Type} (nodes : List (Node G)) : Nat :=
  nodes.foldl (fun m n => max m n.nodeID) 0

/-- `edges_gdf.index.max()` (the index equals `edgeID`). -/
def maxEdgeID {G : Type} (edges : List (Edge G)) : Nat :=
  edges.foldl (fun m e => max m e.edgeID) 0

/-- Modelled from the spec: `distance_geometry_gdf` (module `utilities`, not
under src/) computes "the minimum distance from P to every node and to every
edge's geometry" (spec 4.5) over a table and returns the pair
`(minimum distance, index of the nearest row)`.  Ties keep the earlier row.
The original errors on an empty table; here a large sentinel distance is
returned instead (never exercised by the theorems below). -/
def distance_geometry_gdf {G : Type} (ctx : GeomCtx G) (p : G)
    (rows : List (Nat × G)) : ℚ × Nat :=
  match rows with
  | [] => ((10 : ℚ) ^ (9 : Nat), 0)
  | r :: rs =>
    rs.foldl (fun best q =>
      if ctx.dist p q.2 < best.1 then (ctx.dist p q.2, q.1) else best)
      (ctx.dist p r.2, r.1)

/-- Modelled from the spec: `split_line_at_interpolation` (not under src/)
"compute[s] the point on that edge's geometry nearest to P (interpolation),
split[s] the edge's coordinate sequence at that point into two substrings"
(spec 4.5), returning the pair of half lines and the split point. -/
def split_line_at_interpolation {G : Type} (ctx : GeomCtx G) (p : G) (g : G) :
    (G × G) × G :=
  ctx.splitAt p g

/-- Modelled from the spec: `correct_edges` (module `clean`, not under src/)
keeps "node and edge geometry consistent" (spec 4.3): every edge geometry's
end coordinates are updated to the current positions of its endpoint nodes. -/
def correct_edges {G : Type} [Inhabited G] (ctx : GeomCtx G)
    (nodes : List (Node G)) (edges : List (Edge G)) : List (Edge G) :=
  edges.map (fun e =>
    { e with geometry := ctx.alignEnds e.geometry (geomOfNode nodes e.u) (geomOfNode nodes e.v) })

/-- The recognized options of `clean_network` (spec 4.3). -/
structure CleanSettings where
  remove_disconnected_islands : Bool
  dead_ends : Bool
  same_uv_edges : Bool
  self_loops : Bool
  fix_topology : Bool
  deriving Repr, DecidableEq

/-- `clean_settings` of transport_network.py line 17. -/
def clean_settings : CleanSettings :=
  { remove_disconnected_islands := false, dead_ends := false,
    same_uv_edges := false, self_loops := true, fix_topology := false }

/-- Modelled from the spec: duplicate-edge detection of `clean_network`
(spec 4.3 step 2): two edges are duplicates when they share the canonical
undirected code and have identical direction-insensitive coordinate
sequences; only the first survives. -/
def isDuplicateEdge {G : Type} (ctx : GeomCtx G) (kept e : Edge G) : Bool :=
  (min kept.u kept.v = min e.u e.v) ∧ (max kept.u kept.v = max e.u e.v) ∧
    (ctx.coords kept.geometry = ctx.coords e.geometry ∨
     ctx.coords kept.geometry = (ctx.coords e.geometry).reverse)

/-- Modelled from the spec: `clean_network` (module `clean`, not under src/),
restricted to the two cleanup rules the specification describes and the flag
combinations the sources use (`same_uv_edges` and `self_loops`; the island,
dead-end and fix-topology rules are disabled in every call made by
transport_network.py).  `self_loops` removes edges with `u == v` and length
below 1.0 (spec 4.3 step 3); `same_uv_edges` drops duplicate edges
(spec 4.3 step 2). -/
def clean_network {G : Type} (ctx : GeomCtx G) (nodes : List (Node G))
    (edges : List (Edge G)) (settings : CleanSettings) :
    List (Node G) × List (Edge G) :=
  let edges1 :=
    if settings.same_uv_edges then
      edges.foldl (fun kept e =>
        if kept.any (fun k => isDuplicateEdge ctx k e) then kept else kept ++ [e]) []
    else edges
  let edges2 :=
    if settings.self_loops then
      edges1.filter (fun e => ¬ (e.u = e.v ∧ ctx.length e.geometry < 1))
    else edges1
  (nodes, edges2)

/-! ## Barriers: `barriers.py` -/

/-- `_crossing_barriers` (barriers.py lines 450-474): barriers intersecting a
street segment, excluding those that merely touch it. -/
def crossing_barriers {G : Type} (ctx : GeomCtx G) (line_geometry : G)
    (barriers_gdf : List (Barrier G)) : List Nat :=
  let intersecting := barriers_gdf.filter (fun b => ctx.intersects b.geometry line_geometry)
  let touching := barriers_gdf.filter (fun b => ctx.touches b.geometry line_geometry)
  if intersecting.isEmpty then []
  else
    (intersecting.filter (fun b => b.barrierID ∉ touching.map (·.barrierID))).map (·.barrierID)

/-- `barriers_along` (barriers.py lines 347-392): barriers intersecting the
buffered street segment, excluding those touching the raw segment, and
excluding barriers whose sight line from the segment's midpoint is
intersected by some other edge.  The RTree candidate query
`sindex.intersection(buffer.bounds)` is modelled by `bboxIntersects`. -/
def barriers_along {G : Type} [Inhabited G] (ctx : GeomCtx G) (ix_line : Nat)
    (edges_gdf : List (Edge G)) (barriers_gdf : List (Barrier G))
    (offset : ℚ) : List Nat :=
  let line_geometry := geomOfEdge edges_gdf ix_line
  let buffer := ctx.buffer line_geometry offset
  let intersecting0 := barriers_gdf.filter (fun b => ctx.intersects b.geometry buffer)
  let touching := barriers_gdf.filter (fun b => ctx.touches b.geometry line_geometry)
  let intersecting := intersecting0.filter (fun b => b.barrierID ∉ touching.map (·.barrierID))
  if intersecting.isEmpty then []
  else
    let pm := (edges_gdf.filter (fun e => ctx.bboxIntersects e.geometry buffer)).filter
      (fun e => e.edgeID ≠ ix_line)
    let result := (intersecting.filter (fun b =>
      let midpoint := ctx.interpolateMid line_geometry
      let line := ctx.segment midpoint (ctx.nearestPointOn midpoint b.geometry)
      ¬ (pm.any (fun e => ctx.intersects e.geometry line) = true))).map (·.barrierID)
    if result.isEmpty then [] else result

/-- `_within_parks` (barriers.py lines 396-420): parks whose polygon
intersects, but does not merely touch, the street segment.  Rows of
`park_polygons` are `(barrierID, polygonized geometry)`. -/
def within_parks {G : Type} (ctx : GeomCtx G) (line_geometry : G)
    (park_polygons : List (Nat × G)) : List Nat :=
  let intersecting := park_polygons.filter (fun p => ctx.intersects p.2 line_geometry)
  let touching := park_polygons.filter (fun p => ctx.touches p.2 line_geometry)
  if intersecting.isEmpty then []
  else (intersecting.filter (fun p => p.1 ∉ touching.map (·.1))).map (·.1)

/-- `along_water` (barriers.py lines 284-312).  Returns, per edge, the final
`a_rivers` list and the `bridge` flag.  Line 308 stores the subtraction
`set(ac_rivers) - set(c_rivers)` into `a_rivers`, and line 309 immediately
overwrites `a_rivers` with `ac_rivers if not bridge else []`; both
assignments are reproduced here (`list(set(...))` is modelled by `dedup`,
which is faithful up to element order). -/
def along_water {G : Type} [Inhabited G] (ctx : GeomCtx G)
    (edges_gdf : List (Edge G)) (barriers_gdf : List (Barrier G)) :
    List (Edge G × List Nat × Bool) :=
  let tmp := barriers_gdf.filter (fun b => b.btype = "water")
  edges_gdf.map (fun row =>
    let ac_rivers := barriers_along ctx row.edgeID edges_gdf tmp 200
    let c_rivers := crossing_barriers ctx row.geometry tmp
    let bridge : Bool := decide (0 < c_rivers.length)
    let _a_rivers_line308 := (ac_rivers.filter (fun i => i ∉ c_rivers)).dedup
    let a_rivers := if bridge then [] else ac_rivers
    (row, a_rivers, bridge))

/-- `along_within_parks` (barriers.py lines 314-345).  Returns, per edge, the
final `aw_parks` list, the union (`list(set(a_parks + w_parks))`, modelled by
`dedup` over the concatenation) of the "along" and "within" park lists. -/
def along_within_parks {G : Type} [Inhabited G] (ctx : GeomCtx G)
    (edges_gdf : List (Edge G)) (barriers_gdf : List (Barrier G)) :
    List (Edge G × List Nat) :=
  let tmp := barriers_gdf.filter (fun b => b.btype = "park")
  let park_polygons := tmp.map (fun b => (b.barrierID, ctx.polygonize b.geometry))
  edges_gdf.map (fun row =>
    let a_parks := barriers_along ctx row.edgeID edges_gdf tmp 200
    let w_parks := within_parks ctx row.geometry park_polygons
    let aw_parks := (a_parks ++ w_parks).dedup
    (row, aw_parks))

/-! ## Graph construction: `gdfs_from_railways` (transport_network.py) -/

/-- An edge row during `gdfs_from_railways`, carrying the `code` and `coords`
working columns (transport_network.py lines 102, 120, 124-125). -/
structure REdge (G : Type) where
  edgeID : Nat
  u : Nat
  v : Nat
  geometry : G
  code : Nat × Nat
  rcoords : List (ℚ × ℚ)
  deriving Repr, DecidableEq

def REdge.toEdge {G : Type} (e : REdge G) : Edge G :=
  { edgeID := e.edgeID, u := e.u, v := e.v, geometry := e.geometry }

/-- Line 120: the canonical undirected code, the lower node ID first
(`np.where(v >= u, u-v, v-u)`); the string `"a-b"` is modelled as the pair
`(a, b)`. -/
def railways_assign_code {G : Type} (edges : List (Edge G)) : List (REdge G) :=
  edges.map (fun e =>
    { edgeID := e.edgeID, u := e.u, v := e.v, geometry := e.geometry,
      code := if e.v ≥ e.u then (e.u, e.v) else (e.v, e.u), rcoords := [] })

/-- Modelled from the spec: `duplicate_nodes` (module `clean`, not under
src/).  Node identity is exact coordinate equality (spec 4.2): nodes sharing
the same `(x, y)` are collapsed onto the first such node and the edges'
endpoint IDs are remapped accordingly. -/
def duplicate_nodes {G : Type} (nodes : List (Node G)) (edges : List (REdge G)) :
    List (Node G) × List (REdge G) :=
  let kept := nodes.foldl (fun acc n =>
    if acc.any (fun m => m.x = n.x ∧ m.y = n.y) then acc else acc ++ [n]) []
  let remap : Nat → Nat := fun i =>
    match findNode nodes i with
    | none => i
    | some n => ((kept.find? (fun m => m.x = n.x ∧ m.y = n.y)).map (·.nodeID)).getD i
  (kept, edges.map (fun e => { e with u := remap e.u, v := remap e.v }))

/-- Lines 124-125: store the coordinate sequence of every edge, reversed for
the rows whose current `u`-`v` pair no longer matches the stored `code`. -/
def railways_set_coords {G : Type} (ctx : GeomCtx G) (edges : List (REdge G)) :
    List (REdge G) :=
  edges.map (fun e =>
    { e with rcoords :=
        if (e.u, e.v) ≠ e.code then (ctx.coords e.geometry).reverse
        else ctx.coords e.geometry })

/-- Lines 128-129: `drop_duplicates(['tmp'], keep='first')` on the
coordinate-sequence column. -/
def railways_dedup {G : Type} (edges : List (REdge G)) : List (REdge G) :=
  edges.foldl (fun kept e =>
    if kept.any (fun k => k.rcoords = e.rcoords) then kept else kept ++ [e]) []

/-- The edge table of `gdfs_from_railways` after code assignment, duplicate
node collapsing, coordinate reordering and geometry deduplication
(lines 118-129), just before the self-loop filter of line 131. -/
def railways_prepared {G : Type} (ctx : GeomCtx G) (nodes : List (Node G))
    (edges0 : List (Edge G)) : List (Node G) × List (REdge G) :=
  let withCode := railways_assign_code edges0
  let nodesEdges := duplicate_nodes nodes withCode
  (nodesEdges.1, railways_dedup (railways_set_coords ctx nodesEdges.2))

/-- `gdfs_from_railways`, edge table (transport_network.py lines 118-132):
the prepared edges with node-line artifacts (`u == v` and length below 1.0)
removed and the working columns dropped.  The upstream table assembly
(`obtain_nodes_gdf` / `join_by_coordinates`, not under src/) is received as
the already node-joined input `nodes`/`edges0`. -/
def gdfs_from_railways_edges {G : Type} (ctx : GeomCtx G)
    (nodes : List (Node G)) (edges0 : List (Edge G)) : List (Edge G) :=
  ((railways_prepared ctx nodes edges0).2.filter
      (fun e => ¬ (e.u = e.v ∧ ctx.length e.geometry < 1))).map REdge.toEdge

/-! ## Station assignment: `assign_stations_to_nodes` -/

/-- The mutable pair of tables threaded through the station loops. -/
structure GState (G : Type) where
  nodes : List (Node G)
  edges : List (Edge G)
  deriving Repr, DecidableEq

/-- One iteration of the station loop of `assign_stations_to_nodes`
(transport_network.py lines 143-172).  The station is discarded when both the
nearest node and the nearest edge are farther than 50 units; it is snapped to
the nearest node when that node is at least as close as the nearest edge;
otherwise the nearest edge is split at the interpolated point: a fresh node
(ID `index.max() + 1`) is created there, the split edge keeps its `edgeID`
with the first half and ends at the new node, and a fresh edge
(ID `index.max() + 1`) carries the second half starting at the new node.
(The `findEdge` fallback for an absent row models the KeyError the original
would raise and is unreachable for nonempty tables.) -/
def assign_station_step {G : Type} [Inhabited G] (ctx : GeomCtx G)
    (st : Station G) (s : GState G) : GState G :=
  let dn := distance_geometry_gdf ctx st.geometry (s.nodes.map (fun n => (n.nodeID, n.geometry)))
  let de := distance_geometry_gdf ctx st.geometry (s.edges.map (fun e => (e.edgeID, e.geometry)))
  if 50 < dn.1 ∧ 50 < de.1 then s
  else if dn.1 ≤ de.1 then
    { s with nodes := s.nodes.map (fun n =>
        if n.nodeID = dn.2 then { n with stationID := st.sIx, name := st.sname } else n) }
  else
    match findEdge s.edges de.2 with
    | none => s
    | some old =>
      let lp := split_line_at_interpolation ctx st.geometry old.geometry
      let nid := maxNodeID s.nodes + 1
      let newEid := maxEdgeID s.edges + 1
      let newNode : Node G :=
        { nodeID := nid, geometry := lp.2, x := (ctx.firstCoord lp.2).1,
          y := (ctx.firstCoord lp.2).2, stationID := st.sIx, name := st.sname }
      { nodes := s.nodes ++ [newNode],
        edges := (s.edges.map (fun e =>
            if e.edgeID = de.2 then { e with geometry := lp.1.1, v := nid } else e))
          ++ [{ old with edgeID := newEid, geometry := lp.1.2, u := nid }] }

/-- `assign_stations_to_nodes` (transport_network.py lines 137-182): reset
`stationID` to the sentinel and `name` to `None` on every node, run the
station loop, recompute `x`/`y` from the node geometries and re-align the
edge geometries (the `astype`/index reassignments of lines 174-178 are
no-ops in this model because the index is identified with `nodeID`). -/
def assign_stations_to_nodes {G : Type} [Inhabited G] (ctx : GeomCtx G)
    (stations : List (Station G)) (nodes : List (Node G))
    (edges : List (Edge G)) : List (Node G) × List (Edge G) :=
  let nodes0 := nodes.map (fun n => { n with stationID := 999999, name := none })
  let s := stations.foldl (fun s st => assign_station_step ctx st s) ⟨nodes0, edges⟩
  let ns := s.nodes.map (fun n =>
    { n with x := (ctx.firstCoord n.geometry).1, y := (ctx.firstCoord n.geometry).2 })
  (ns, correct_edges ctx ns s.edges)

/-! ## Station dissolving: `simplify_stations`, `merge_station_nodes`,
`dissolve_stations` -/

/-- The mutable state of a merge pass: the two tables plus the accumulated
`to_drop` list. -/
structure DState (G : Type) where
  nodes : List (Node G)
  edges : List (Edge G)
  toDrop : List Nat
  deriving Repr, DecidableEq

/-- One iteration of the loop of `simplify_stations` (transport_network.py
lines 196-204): endpoints are read live from the current edge row; when both
carry the same non-null name the second (`v`) is merged into the first (`u`):
the surviving node moves to the centroid of the two current positions, all
edges referencing `v` are rewired to `u`, and `v` joins `to_drop`. -/
def simplify_step {G : Type} [Inhabited G] (ctx : GeomCtx G) (s : DState G)
    (ix : Nat) : DState G :=
  match findEdge s.edges ix with
  | none => s
  | some e =>
    if nameOfNode s.nodes e.u = nameOfNode s.nodes e.v ∧
        nameOfNode s.nodes e.u ≠ none then
      { nodes := s.nodes.map (fun n =>
          if n.nodeID = e.u then
            { n with geometry := ctx.centroid2 (geomOfNode s.nodes e.u) (geomOfNode s.nodes e.v) }
          else n),
        edges := s.edges.map (fun ed =>
          { ed with u := if ed.u = e.v then e.u else ed.u,
                    v := if ed.v = e.v then e.u else ed.v }),
        toDrop := s.toDrop ++ [e.v] }
    else s

/-- The shared tail of the two merge passes (transport_network.py
lines 206-211 and 243-248): drop the merged-away nodes, drop edges whose two
endpoints were both merged away, recompute `x`/`y`, re-align edge geometry
and run `clean_network` with the default conservative settings. -/
def merge_finalize {G : Type} [Inhabited G] (ctx : GeomCtx G) (s : DState G) :
    List (Node G) × List (Edge G) :=
  let nodes1 := s.nodes.filter (fun n => n.nodeID ∉ s.toDrop)
  let edges1 := s.edges.filter (fun e => ¬ (e.u ∈ s.toDrop ∧ e.v ∈ s.toDrop))
  let nodes2 := nodes1.map (fun n =>
    { n with x := (ctx.firstCoord n.geometry).1, y := (ctx.firstCoord n.geometry).2 })
  let edges2 := correct_edges ctx nodes2 edges1
  clean_network ctx nodes2 edges2 clean_settings

/-- `simplify_stations` (transport_network.py lines 192-213). -/
def simplify_stations {G : Type} [Inhabited G] (ctx : GeomCtx G)
    (nodes : List (Node G)) (edges : List (Edge G)) :
    List (Node G) × List (Edge G) :=
  let s := (edgeIDs edges).foldl (simplify_step ctx) ⟨nodes, edges, []⟩
  merge_finalize ctx s

/-- One iteration of the loop of `merge_station_nodes` (transport_network.py
lines 222-241), driven by a row of the `old_edges_gdf` snapshot: edges no
longer than the tolerance whose endpoints carry different `stationID`s, one
of them the sentinel, merge the sentinel node into the station-assigned one
(centroid position, rewire, record in `to_drop`). -/
def merge_step {G : Type} [Inhabited G] (ctx : GeomCtx G) (tolerance : ℚ)
    (s : DState G) (row : Edge G) : DState G :=
  if tolerance < ctx.length row.geometry then s
  else
    let stU := stationIDof s.nodes row.u
    let stV := stationIDof s.nodes row.v
    if stU ≠ stV ∧ (stU = 999999 ∨ stV = 999999) then
      let survivor := if stU ≠ 999999 then row.u else row.v
      let dropped := if stU ≠ 999999 then row.v else row.u
      let centroid := ctx.centroid2 (geomOfNode s.nodes row.u) (geomOfNode s.nodes row.v)
      { nodes := s.nodes.map (fun n =>
          if n.nodeID = survivor then { n with geometry := centroid } else n),
        edges := s.edges.map (fun e =>
          { e with u := if e.u = dropped then survivor else e.u,
                   v := if e.v = dropped then survivor else e.v }),
        toDrop := s.toDrop ++ [dropped] }
    else s

/-- `merge_station_nodes` (transport_network.py lines 216-250), default
tolerance 40.  The loop iterates over the `old_edges_gdf` snapshot taken
before any merge. -/
def merge_station_nodes {G : Type} [Inhabited G] (ctx : GeomCtx G)
    (nodes : List (Node G)) (edges : List (Edge G)) (tolerance : ℚ := 40) :
    List (Node G) × List (Edge G) :=
  let s := edges.foldl (merge_step ctx tolerance) ⟨nodes, edges, []⟩
  merge_finalize ctx s

/-- `dissolve_stations` (transport_network.py lines 184-190): one name-based
pass, one tolerance-based pass, one further name-based pass, in a fixed
sequence. -/
def dissolve_stations {G : Type} [Inhabited G] (ctx : GeomCtx G)
    (nodes : List (Node G)) (edges : List (Edge G)) :
    List (Node G) × List (Edge G) :=
  let p1 := simplify_stations ctx nodes edges
  let p2 := merge_station_nodes ctx p1.1 p1.2 40
  simplify_stations ctx p2.1 p2.2

/-! ## Station extension: `extend_stations` -/

/-- One iteration of the inner edge loop of `extend_stations`
(transport_network.py lines 262-283).  `stRow` is the station's row in the
`tmp_nodes` snapshot taken before the loops.  The edge is looked up live; the
candidate split is abandoned when some other station (any name) lies strictly
closer to the split point than this station does, or when the edge already
ends at a node carrying this station's name; otherwise the station's node is
moved to the centroid of its snapshot position and the split point, and the
edge is split exactly as in `assign_stations_to_nodes`. -/
def extend_step {G : Type} [Inhabited G] (ctx : GeomCtx G) (stRow : Node G)
    (s : GState G) (eix : Nat) : GState G :=
  match findEdge s.edges eix with
  | none => s
  | some e =>
    let lp := split_line_at_interpolation ctx stRow.geometry e.geometry
    let point := lp.2
    let others := s.nodes.filter (fun n => n.stationID ≠ 999999 ∧ n.nodeID ≠ stRow.nodeID)
    if (distance_geometry_gdf ctx point (others.map (fun n => (n.nodeID, n.geometry)))).1 <
        ctx.dist point stRow.geometry then s
    else if nameOfNode s.nodes e.u = stRow.name ∨ nameOfNode s.nodes e.v = stRow.name then s
    else
      let newEid := maxEdgeID s.edges + 1
      { nodes := s.nodes.map (fun n =>
          if n.nodeID = stRow.nodeID then
            { n with geometry := ctx.centroid2 stRow.geometry point } else n),
        edges := (s.edges.map (fun e2 =>
            if e2.edgeID = eix then { e2 with geometry := lp.1.1, v := stRow.nodeID } else e2))
          ++ [{ e with edgeID := newEid, geometry := lp.1.2, u := stRow.nodeID }] }

/-- `extend_stations` (transport_network.py lines 252-293): for every station
of the `tmp_nodes` snapshot, the edges currently intersecting the 25-unit
buffer around the station and not terminating at it are fed to `extend_step`;
afterwards `x`/`y` are recomputed, edge geometry re-aligned, the network
cleaned with `same_uv_edges` additionally enabled, and stations dissolved. -/
def extend_stations {G : Type} [Inhabited G] (ctx : GeomCtx G)
    (nodes : List (Node G)) (edges : List (Edge G)) :
    List (Node G) × List (Edge G) :=
  let tmp_nodes := nodes.filter (fun n => n.stationID ≠ 999999)
  let s := tmp_nodes.foldl (fun s stRow =>
      let buf := ctx.buffer stRow.geometry 25
      let tmp_edges := (s.edges.filter (fun e => ctx.intersects e.geometry buf)).filter
        (fun e => e.u ≠ stRow.nodeID ∧ e.v ≠ stRow.nodeID)
      (tmp_edges.map (·.edgeID)).foldl (extend_step ctx stRow) s)
    (⟨nodes, edges⟩ : GState G)
  let ns := s.nodes.map (fun n =>
    { n with x := (ctx.firstCoord n.geometry).1, y := (ctx.firstCoord n.geometry).2 })
  let es := correct_edges ctx ns s.edges
  let cleaned := clean_network ctx ns es { clean_settings with same_uv_edges := true }
  dissolve_stations ctx cleaned.1 cleaned.2

/-! ## Concrete instantiations

Geometries are encoded as natural-number handles into the tables of a
concrete `GeomCtx Nat`; each context below is a faithful tabulation of a
realizable planar configuration, described in its doc comment. -/

/-- A neutral context over `Nat`-encoded geometries; concrete scenarios
override the fields they exercise. -/
def constCtx : GeomCtx Nat :=
  { dist := fun _ _ => 0, length := fun _ => 0, buffer := fun g _ => g,
    intersects := fun _ _ => false, touches := fun _ _ => false,
    interpolateMid := fun g => g, nearestPointOn := fun _ g => g,
    segment := fun p _ => p, bboxIntersects := fun _ _ => false,
    polygonize := fun g => g, centroid2 := fun a _ => a,
    splitAt := fun p g => ((g, g), p), alignEnds := fun g _ _ => g,
    firstCoord := fun g => ((g : ℚ), 0), coords := fun g => [((g : ℚ), 0)] }

/-- Scenario for C7: edge `10`, barrier `20` sharing an endpoint with the
edge (touching, hence also intersecting); `30` is the edge's 100-unit
buffer, which the barrier intersects. -/
def ctxC7 : GeomCtx Nat :=
  { constCtx with
    buffer := fun g r => if g = 10 ∧ r = 100 then 30 else 0,
    intersects := fun a b => decide ((a = 20 ∧ b = 10) ∨ (a = 20 ∧ b = 30)),
    touches := fun a b => decide (a = 20 ∧ b = 10),
    bboxIntersects := fun a b => decide (a = 10 ∧ b = 30) }

def edgesC7 : List (Edge Nat) := [⟨0, 1, 2, 10⟩]

def barriersC7 : List (Barrier Nat) := [⟨0, "water", 20⟩]

/-- Scenario for C1: a single edge `10` lying inside a park whose boundary
`20` polygonizes to area `21`; the boundary lies within the edge's 200-unit
buffer `30` without touching the edge, and no other edge occludes the sight
line `42` from the edge midpoint `40` to the nearest boundary point `41`. -/
def ctxC1 : GeomCtx Nat :=
  { constCtx with
    buffer := fun g r => if g = 10 ∧ r = 200 then 30 else 0,
    intersects := fun a b => decide ((a = 20 ∧ b = 30) ∨ (a = 21 ∧ b = 10)),
    bboxIntersects := fun a b => decide (a = 10 ∧ b = 30),
    polygonize := fun g => if g = 20 then 21 else 0,
    interpolateMid := fun g => if g = 10 then 40 else 0,
    nearestPointOn := fun p g => if p = 40 ∧ g = 20 then 41 else 0,
    segment := fun p q => if p = 40 ∧ q = 41 then 42 else 0 }

def eC1 : Edge Nat := ⟨0, 1, 2, 10⟩

def edgesC1 : List (Edge Nat) := [eC1]

def barriersC1 : List (Barrier Nat) := [⟨0, "park", 20⟩]

/-- Scenario for C2: edge `10` crosses river `50` (a bridge) while a second
river `60` runs alongside within the 200-unit buffer `30` without crossing
or touching; no other edge occludes either sight line. -/
def ctxC2 : GeomCtx Nat :=
  { constCtx with
    buffer := fun g r => if g = 10 ∧ r = 200 then 30 else 0,
    intersects := fun a b =>
      decide ((a = 50 ∧ b = 30) ∨ (a = 60 ∧ b = 30) ∨ (a = 50 ∧ b = 10)),
    bboxIntersects := fun a b => decide (a = 10 ∧ b = 30),
    interpolateMid := fun g => if g = 10 then 40 else 0,
    nearestPointOn := fun p g =>
      if p = 40 ∧ g = 50 then 51 else if p = 40 ∧ g = 60 then 61 else 0,
    segment := fun p q =>
      if p = 40 ∧ q = 51 then 52 else if p = 40 ∧ q = 61 then 62 else 0 }

def eC2 : Edge Nat := ⟨0, 1, 2, 10⟩

def edgesC2 : List (Edge Nat) := [eC2]

def barriersC2 : List (Barrier Nat) := [⟨1, "water", 50⟩, ⟨2, "water", 60⟩]

/-- Scenario for C3/C5: nodes at points `1` and `2` joined by the straight
100-unit edge `10`; station point `5` lies 40 units from node `0`, 90 from
node `1` and only 30 from the edge's interior, so the edge is split into
halves `11` (60 units) and `12` (40 units) at point `13`; station point `6`
lies 20 units from node `0` and 30 from the edge, so it snaps. -/
def ctxSplit : GeomCtx Nat :=
  { constCtx with
    dist := fun p g =>
      if p = 5 ∧ g = 1 then 40 else if p = 5 ∧ g = 2 then 90 else
      if p = 5 ∧ g = 10 then 30 else
      if p = 6 ∧ g = 1 then 20 else if p = 6 ∧ g = 2 then 55 else
      if p = 6 ∧ g = 10 then 30 else 1000,
    length := fun g =>
      if g = 10 then 100 else if g = 11 then 60 else if g = 12 then 40 else 0,
    splitAt := fun p g => if p = 5 ∧ g = 10 then ((11, 12), 13) else ((g, g), p) }

def nodesSplit : List (Node Nat) :=
  [⟨0, 1, 1, 0, 999999, none⟩, ⟨1, 2, 2, 0, 999999, none⟩]

def edgesSplit : List (Edge Nat) := [⟨0, 0, 1, 10⟩]

/-- The station that the code splits the edge for (node at 40 ≤ 50, edge
strictly closer at 30). -/
def stSplit : Station Nat := ⟨0, 5, some "A"⟩

/-- The station that snaps to node `0` (node at 20, edge at 30). -/
def stSnap : Station Nat := ⟨0, 6, some "A"⟩

/-- The invariant maintained by the loop of `merge_station_nodes` over the
initial node table `nodes0`: node IDs and `stationID`s are unchanged, every
merged-away node carries the sentinel `stationID`, and no current edge
references a merged-away node. -/
def mergeInv {G : Type} (nodes0 : List (Node G)) (s : DState G) : Prop :=
  nodeIDs s.nodes = nodeIDs nodes0 ∧
  (∀ i, stationIDof s.nodes i = stationIDof nodes0 i) ∧
  (∀ i ∈ s.toDrop, stationIDof nodes0 i = 999999) ∧
  (∀ e ∈ s.edges, (e.u ∈ nodeIDs nodes0 ∧ e.u ∉ s.toDrop) ∧
    (e.v ∈ nodeIDs nodes0 ∧ e.v ∉ s.toDrop))

/-- Scenario for the C6 witness: station node `1` (stationID 7) and the
unassigned node `2` joined by a 10-unit edge, below the 40-unit tolerance;
their centroid is point `4`. -/
def ctxC6 : GeomCtx Nat :=
  { constCtx with
    length := fun g => if g = 10 then 10 else 0,
    centroid2 := fun a b => if a = 1 ∧ b = 2 then 4 else 0 }

def nodesC6 : List (Node Nat) :=
  [⟨1, 1, 1, 0, 7, some "A"⟩, ⟨2, 2, 2, 0, 999999, none⟩]

def edgesC6 : List (Edge Nat) := [⟨0, 1, 2, 10⟩]

/-- Scenario for C4: station node `1` (stationID 7, name "A") at point `1`,
unassigned nodes `2`, `3` at points `2`, `3`, joined by the straight 10-unit
edges `10` and `11`, both below the 40-unit merge tolerance.  Merging node
`2` into node `1` moves it to centroid `4`; the collapsed two-coordinate
loop geometry `20` has length 0 and is cleaned away, while the rewired edge
`21` keeps length 10, so a second dissolve merges node `3` as well (loop
`22`, centroid `5`). -/
def ctxC4 : GeomCtx Nat :=
  { constCtx with
    length := fun g => if g = 10 ∨ g = 11 ∨ g = 21 then 10 else 0,
    centroid2 := fun a b =>
      if a = 1 ∧ b = 2 then 4 else if a = 4 ∧ b = 3 then 5 else 0,
    alignEnds := fun g u v =>
      if g = 10 ∧ u = 1 ∧ v = 2 then 10 else
      if g = 11 ∧ u = 2 ∧ v = 3 then 11 else
      if g = 10 ∧ u = 4 ∧ v = 4 then 20 else
      if g = 11 ∧ u = 4 ∧ v = 3 then 21 else
      if g = 21 ∧ u = 4 ∧ v = 3 then 21 else
      if g = 21 ∧ u = 5 ∧ v = 5 then 22 else 0 }

def nodesC4 : List (Node Nat) :=
  [⟨1, 1, 1, 0, 7, some "A"⟩, ⟨2, 2, 2, 0, 999999, none⟩,
   ⟨3, 3, 3, 0, 999999, none⟩]

def edgesC4 : List (Edge Nat) := [⟨0, 1, 2, 10⟩, ⟨1, 2, 3, 11⟩]

/-- Scenario for the C8 witness: a 5-unit self-loop at node `1` (geometry
`10`), above the 1-unit threshold, so it is retained. -/
def ctxC8 : GeomCtx Nat :=
  { constCtx with length := fun g => if g = 10 then 5 else 0 }

def nodesC8 : List (Node Nat) :=
  [⟨1, 1, 1, 0, 999999, none⟩, ⟨2, 2, 2, 0, 999999, none⟩]

def edges0C8 : List (Edge Nat) := [⟨0, 1, 1, 10⟩]

/-- The C8 self-loop row as it stands after preparation (code `(1,1)`,
straight coordinates). -/
def rC8 : REdge Nat := ⟨0, 1, 1, 10, (1, 1), [(((10 : Nat) : ℚ), 0)]⟩

/-- Scenario for C9: stations `1` ("A", at point `1`) and `2` ("B", at point
`2`); the 100-unit edge `10` joins unassigned nodes `3`, `4` and passes
through station 1's 25-unit buffer `30` (but not station 2's buffer `31`).
Splitting it for station 1 would create point `13`, which lies 10 units from
station 1 but only 5 units from station 2 — a differently named station. -/
def ctxC9 : GeomCtx Nat :=
  { constCtx with
    dist := fun p g =>
      if p = 13 ∧ g = 1 then 10 else if p = 13 ∧ g = 2 then 5 else 0,
    length := fun g => if g = 10 then 100 else 0,
    buffer := fun g r =>
      if g = 1 ∧ r = 25 then 30 else if g = 2 ∧ r = 25 then 31 else 0,
    intersects := fun a b => decide (a = 10 ∧ b = 30),
    splitAt := fun p g => if p = 1 ∧ g = 10 then ((11, 12), 13) else ((g, g), p) }

def nodesC9 : List (Node Nat) :=
  [⟨1, 1, 1, 0, 5, some "A"⟩, ⟨2, 2, 2, 0, 6, some "B"⟩,
   ⟨3, 3, 3, 0, 999999, none⟩, ⟨4, 4, 4, 0, 999999, none⟩]

def edgesC9 : List (Edge Nat) := [⟨0, 3, 4, 10⟩]

/-- Station 1's row in the `tmp_nodes` snapshot of the C9 scenario. -/
def stRowC9 : Node Nat := ⟨1, 1, 1, 0, 5, some "A"⟩

/-! ## Helper lemmas -/

/-- Every member of a `barriers_along` result is the ID of a buffered barrier
that is not excluded by the touching filter. -/
lemma mem_barriers_along {G : Type} [Inhabited G] (ctx : GeomCtx G) (ix_line : Nat)
    (edges_gdf : List (Edge G)) (barriers_gdf : List (Barrier G)) (offset : ℚ)
    (x : Nat) (hx : x ∈ barriers_along ctx ix_line edges_gdf barriers_gdf offset) :
    x ∉ (barriers_gdf.filter
      (fun b => ctx.touches b.geometry (geomOfEdge edges_gdf ix_line))).map (·.barrierID) := by
  simp only [barriers_along] at hx
  split at hx
  · simp at hx
  · split at hx
    · simp at hx
    · simp only [List.mem_map, List.mem_filter, decide_eq_true_eq] at hx
      obtain ⟨b, ⟨⟨hb0, hnt⟩, _⟩, rfl⟩ := hx
      simpa using hnt

/-- Every member of a `crossing_barriers` result is the ID of an intersecting
barrier not excluded by the touching filter. -/
lemma mem_crossing_barriers {G : Type} (ctx : GeomCtx G) (line_geometry : G)
    (barriers_gdf : List (Barrier G)) (x : Nat)
    (hx : x ∈ crossing_barriers ctx line_geometry barriers_gdf) :
    x ∉ (barriers_gdf.filter
      (fun b => ctx.touches b.geometry line_geometry)).map (·.barrierID) := by
  simp only [crossing_barriers] at hx
  split at hx
  · simp at hx
  · simp only [List.mem_map, List.mem_filter, decide_eq_true_eq] at hx
    obtain ⟨b, ⟨_, hnt⟩, rfl⟩ := hx
    simpa using hnt

/-- The accumulator of a running-maximum fold bounds the seed and every
mapped element. -/
lemma foldl_max_bounds {α : Type _} (f : α → Nat) (l : List α) (a : Nat) :
    a ≤ l.foldl (fun m x => max m (f x)) a ∧
      ∀ x ∈ l, f x ≤ l.foldl (fun m x => max m (f x)) a := by
  induction l generalizing a with
  | nil => simp
  | cons b t ih =>
    refine ⟨le_trans (le_max_left a (f b)) (ih (max a (f b))).1, ?_⟩
    intro x hx
    rcases List.mem_cons.mp hx with h | h
    · subst h
      exact le_trans (le_max_right a (f x)) (ih (max a (f x))).1
    · exact (ih (max a (f b))).2 x h

/-- Every node's ID is bounded by `maxNodeID`. -/
lemma le_maxNodeID {G : Type} (nodes : List (Node G)) :
    ∀ n ∈ nodes, n.nodeID ≤ maxNodeID nodes :=
  (foldl_max_bounds (fun n => n.nodeID) nodes 0).2

/-- Every edge's ID is bounded by `maxEdgeID`. -/
lemma le_maxEdgeID {G : Type} (edges : List (Edge G)) :
    ∀ e ∈ edges, e.edgeID ≤ maxEdgeID edges :=
  (foldl_max_bounds (fun e => e.edgeID) edges 0).2

/-- `maxNodeID + 1` is a fresh node ID. -/
lemma maxNodeID_succ_fresh {G : Type} (nodes : List (Node G)) :
    maxNodeID nodes + 1 ∉ nodeIDs nodes := by
  intro h
  simp only [nodeIDs, List.mem_map] at h
  obtain ⟨n, hn, hid⟩ := h
  have := le_maxNodeID nodes n hn
  omega

/-- `maxEdgeID + 1` is a fresh edge ID. -/
lemma maxEdgeID_succ_fresh {G : Type} (edges : List (Edge G)) :
    maxEdgeID edges + 1 ∉ edgeIDs edges := by
  intro h
  simp only [edgeIDs, List.mem_map] at h
  obtain ⟨e, he, hid⟩ := h
  have := le_maxEdgeID edges e he
  omega

/-- The accumulator of the running-minimum fold stays inside any set that
contains the seed index and the indexes of all rows. -/
lemma foldl_min_mem {G : Type} (ctx : GeomCtx G) (p : G) (S : List Nat) :
    ∀ (l : List (Nat × G)) (init : ℚ × Nat), init.2 ∈ S → (∀ q ∈ l, q.1 ∈ S) →
      (l.foldl (fun best q =>
        if ctx.dist p q.2 < best.1 then (ctx.dist p q.2, q.1) else best) init).2 ∈ S := by
  intro l
  induction l with
  | nil => intro init h _; simpa using h
  | cons b t ih =>
    intro init hinit hall
    simp only [List.foldl_cons]
    by_cases hlt : ctx.dist p b.2 < init.1
    · rw [if_pos hlt]
      exact ih _ (hall b (List.mem_cons_self b t))
        (fun q hq => hall q (List.mem_cons_of_mem _ hq))
    · rw [if_neg hlt]
      exact ih init hinit (fun q hq => hall q (List.mem_cons_of_mem _ hq))

/-- The index returned by `distance_geometry_gdf` is the index of one of the
rows (for a nonempty table). -/
lemma distance_geometry_gdf_mem {G : Type} (ctx : GeomCtx G) (p : G)
    (rows : List (Nat × G)) (h : rows ≠ []) :
    (distance_geometry_gdf ctx p rows).2 ∈ rows.map Prod.fst := by
  match rows, h with
  | r :: rs, _ =>
    exact foldl_min_mem ctx p ((r :: rs).map Prod.fst) rs (ctx.dist p r.2, r.1)
      (by simp)
      (fun q hq => List.mem_map_of_mem _ (List.mem_cons_of_mem _ hq))

/-! ## Claim theorems -/

/-- C7: for every edge and every barrier whose geometry touches the edge's
geometry, the barrier's `barrierID` appears neither in the edge's crossing
result list nor in its along result list. -/
theorem C7_touching_excluded {G : Type} [Inhabited G] (ctx : GeomCtx G)
    (ix : Nat) (edges : List (Edge G)) (barriers : List (Barrier G))
    (offset : ℚ) (b : Barrier G) (hb : b ∈ barriers)
    (ht : ctx.touches b.geometry (geomOfEdge edges ix) = true) :
    b.barrierID ∉ barriers_along ctx ix edges barriers offset ∧
    b.barrierID ∉ crossing_barriers ctx (geomOfEdge edges ix) barriers := by
  constructor
  · intro hmem
    have h := mem_barriers_along ctx ix edges barriers offset _ hmem
    exact h (List.mem_map_of_mem _ (List.mem_filter.mpr ⟨hb, by simp [ht]⟩))
  · intro hmem
    have h := mem_crossing_barriers ctx (geomOfEdge edges ix) barriers _ hmem
    exact h (List.mem_map_of_mem _ (List.mem_filter.mpr ⟨hb, by simp [ht]⟩))

/-- Witness for C7 at the concrete touching configuration. -/
theorem C7_touching_excluded_witness :
    (0 : Nat) ∉ barriers_along ctxC7 0 edgesC7 barriersC7 100 ∧
    (0 : Nat) ∉ crossing_barriers ctxC7 (geomOfEdge edgesC7 0) barriersC7 :=
  C7_touching_excluded ctxC7 0 edgesC7 barriersC7 100 ⟨0, "water", 20⟩
    (by simp [barriersC7]) (by decide)

/-- C1 (amended): for water, the per-edge along list is disjoint from the
per-edge crossing list; for parks, the along and within lists are not kept
separate but merged into the single `aw_parks` list, whose membership is
exactly membership in either component list. -/
theorem C1_water_disjoint_parks_merged {G : Type} [Inhabited G]
    (ctx : GeomCtx G) (edges : List (Edge G)) (barriers : List (Barrier G)) :
    (∀ x ∈ along_water ctx edges barriers, ∀ i ∈ x.2.1,
        i ∉ crossing_barriers ctx x.1.geometry
          (barriers.filter (fun b => b.btype = "water"))) ∧
    (∀ y ∈ along_within_parks ctx edges barriers, ∀ i,
        i ∈ y.2 ↔
          (i ∈ barriers_along ctx y.1.edgeID edges
              (barriers.filter (fun b => b.btype = "park")) 200 ∨
           i ∈ within_parks ctx y.1.geometry
              ((barriers.filter (fun b => b.btype = "park")).map
                (fun b => (b.barrierID, ctx.polygonize b.geometry))))) := by
  constructor
  · intro x hx i hi
    simp only [along_water, List.mem_map] at hx
    obtain ⟨row, hrow, rfl⟩ := hx
    by_cases hc : 0 < (crossing_barriers ctx row.geometry
        (barriers.filter (fun b => b.btype = "water"))).length
    · simp [hc] at hi
    · have : crossing_barriers ctx row.geometry
          (barriers.filter (fun b => b.btype = "water")) = [] :=
        List.length_eq_zero.mp (by omega)
      simp [this]
  · intro y hy i
    simp only [along_within_parks, List.mem_map] at hy
    obtain ⟨row, hrow, rfl⟩ := hy
    simp [List.mem_dedup]

/-- Witness for the C1 amendment at the concrete park configuration. -/
theorem C1_water_disjoint_parks_merged_witness :
    (0 : Nat) ∈ (eC1, [(0 : Nat)]).2 ↔
      ((0 : Nat) ∈ barriers_along ctxC1 eC1.edgeID edgesC1
          (barriersC1.filter (fun b => b.btype = "park")) 200 ∨
       (0 : Nat) ∈ within_parks ctxC1 eC1.geometry
          ((barriersC1.filter (fun b => b.btype = "park")).map
            (fun b => (b.barrierID, ctxC1.polygonize b.geometry)))) :=
  (C1_water_disjoint_parks_merged ctxC1 edgesC1 barriersC1).2
    (eC1, [0]) (by decide) 0

/-- C1 is false as stated: with one edge lying inside a park, the park's
barrierID appears in both the along list and the within list computed for
that edge (they are then merged, not kept disjoint). -/
theorem C1_three_sets_not_disjoint_cex :
    (0 : Nat) ∈ barriers_along ctxC1 0 edgesC1
      (barriersC1.filter (fun b => b.btype = "park")) 200 ∧
    (0 : Nat) ∈ within_parks ctxC1 eC1.geometry
      ((barriersC1.filter (fun b => b.btype = "park")).map
        (fun b => (b.barrierID, ctxC1.polygonize b.geometry))) ∧
    along_within_parks ctxC1 edgesC1 barriersC1 = [(eC1, [0])] :=
  ⟨by decide, by decide, by decide⟩

/-- C2 (amended): the final water along list equals the whole candidate list
when no water barrier crosses the edge, and is emptied entirely (line 309
overwrites the subtraction of line 308) when any water barrier crosses;
`bridge` is set exactly when some water barrier crosses. -/
theorem C2_bridge_empties_along {G : Type} [Inhabited G] (ctx : GeomCtx G)
    (edges : List (Edge G)) (barriers : List (Barrier G)) :
    ∀ x ∈ along_water ctx edges barriers,
      (crossing_barriers ctx x.1.geometry
          (barriers.filter (fun b => b.btype = "water")) = [] →
        x.2.1 = barriers_along ctx x.1.edgeID edges
          (barriers.filter (fun b => b.btype = "water")) 200) ∧
      (crossing_barriers ctx x.1.geometry
          (barriers.filter (fun b => b.btype = "water")) ≠ [] →
        x.2.1 = []) ∧
      (x.2.2 = true ↔ crossing_barriers ctx x.1.geometry
          (barriers.filter (fun b => b.btype = "water")) ≠ []) := by
  intro x hx
  simp only [along_water, List.mem_map] at hx
  obtain ⟨row, hrow, rfl⟩ := hx
  refine ⟨fun hc => ?_, fun hc => ?_, ?_⟩
  · simp [hc]
  · have : 0 < (crossing_barriers ctx row.geometry
        (barriers.filter (fun b => b.btype = "water"))).length :=
      List.length_pos.mpr hc
    simp [this]
  · by_cases hc : crossing_barriers ctx row.geometry
        (barriers.filter (fun b => b.btype = "water")) = []
    · simp [hc]
    · have : 0 < (crossing_barriers ctx row.geometry
          (barriers.filter (fun b => b.btype = "water"))).length :=
        List.length_pos.mpr hc
      simp [this, hc]

/-- Witness for the C2 amendment at the concrete bridge configuration. -/
theorem C2_bridge_empties_along_witness :
    ((eC2, (([] : List Nat), true)).2.2 = true ↔
      crossing_barriers ctxC2 eC2.geometry
        (barriersC2.filter (fun b => b.btype = "water")) ≠ []) :=
  ((C2_bridge_empties_along ctxC2 edgesC2 barriersC2)
    (eC2, ([], true)) (by decide)).2.2

/-- C2 is false as stated: for an edge with one crossing river and one
merely-nearby river, the produced along list is `[]` although the candidate
list minus the crossing list is `[2]`. -/
theorem C2_along_not_subtraction_cex :
    along_water ctxC2 edgesC2 barriersC2 = [(eC2, ([], true))] ∧
    barriers_along ctxC2 eC2.edgeID edgesC2
      (barriersC2.filter (fun b => b.btype = "water")) 200 = [1, 2] ∧
    crossing_barriers ctxC2 eC2.geometry
      (barriersC2.filter (fun b => b.btype = "water")) = [1] ∧
    (barriers_along ctxC2 eC2.edgeID edgesC2
        (barriersC2.filter (fun b => b.btype = "water")) 200).filter
      (fun i => i ∉ crossing_barriers ctxC2 eC2.geometry
        (barriersC2.filter (fun b => b.btype = "water"))) = [2] ∧
    ([] : List Nat) ≠ [2] :=
  ⟨by decide, by decide, by decide, by decide, by decide⟩

/-- C3 (amended): per station feature, the code discards the feature exactly
when both the nearest node and the nearest edge are farther than 50 units;
it snaps to the nearest node (no split, node count unchanged, the chosen
index is a real node, whose `stationID`/`name` become the station's)
whenever the nearest node is at least as close as the nearest edge; and it
splits the nearest edge (creating one new node) whenever the edge is
strictly closer than the nearest node — even when the nearest node is
within 50 units. -/
theorem C3_attachment_rule {G : Type} [Inhabited G] (ctx : GeomCtx G)
    (st : Station G) (s : GState G) :
    (50 < (distance_geometry_gdf ctx st.geometry
          (s.nodes.map (fun n => (n.nodeID, n.geometry)))).1 ∧
     50 < (distance_geometry_gdf ctx st.geometry
          (s.edges.map (fun e => (e.edgeID, e.geometry)))).1 →
      assign_station_step ctx st s = s) ∧
    (¬ (50 < (distance_geometry_gdf ctx st.geometry
          (s.nodes.map (fun n => (n.nodeID, n.geometry)))).1 ∧
        50 < (distance_geometry_gdf ctx st.geometry
          (s.edges.map (fun e => (e.edgeID, e.geometry)))).1) →
     (distance_geometry_gdf ctx st.geometry
          (s.nodes.map (fun n => (n.nodeID, n.geometry)))).1 ≤
       (distance_geometry_gdf ctx st.geometry
          (s.edges.map (fun e => (e.edgeID, e.geometry)))).1 →
      (assign_station_step ctx st s).edges = s.edges ∧
      (assign_station_step ctx st s).nodes.length = s.nodes.length ∧
      (s.nodes ≠ [] →
        (distance_geometry_gdf ctx st.geometry
          (s.nodes.map (fun n => (n.nodeID, n.geometry)))).2 ∈ nodeIDs s.nodes) ∧
      ∀ n ∈ s.nodes,
        n.nodeID = (distance_geometry_gdf ctx st.geometry
          (s.nodes.map (fun n => (n.nodeID, n.geometry)))).2 →
        { n with stationID := st.sIx, name := st.sname } ∈
          (assign_station_step ctx st s).nodes) ∧
    (¬ (50 < (distance_geometry_gdf ctx st.geometry
          (s.nodes.map (fun n => (n.nodeID, n.geometry)))).1 ∧
        50 < (distance_geometry_gdf ctx st.geometry
          (s.edges.map (fun e => (e.edgeID, e.geometry)))).1) →
     (distance_geometry_gdf ctx st.geometry
          (s.edges.map (fun e => (e.edgeID, e.geometry)))).1 <
       (distance_geometry_gdf ctx st.geometry
          (s.nodes.map (fun n => (n.nodeID, n.geometry)))).1 →
     s.edges ≠ [] →
      (assign_station_step ctx st s).nodes.length = s.nodes.length + 1) := by
  refine ⟨fun hfar => ?_, fun hnf hle => ?_, fun hnf hgt hne => ?_⟩
  · simp only [assign_station_step]
    rw [if_pos hfar]
  · simp only [assign_station_step]
    rw [if_neg hnf, if_pos hle]
    refine ⟨rfl, by simp, fun hnodes => ?_, fun n hn hid => ?_⟩
    · have h := distance_geometry_gdf_mem ctx st.geometry
        (s.nodes.map (fun n => (n.nodeID, n.geometry))) (by simpa using hnodes)
      simpa [nodeIDs, List.map_map] using h
    · exact List.mem_map.mpr ⟨n, hn, by rw [if_pos hid]⟩
  · simp only [assign_station_step]
    rw [if_neg hnf, if_neg (not_le.mpr hgt)]
    have hmem : (distance_geometry_gdf ctx st.geometry
        (s.edges.map (fun e => (e.edgeID, e.geometry)))).2 ∈ edgeIDs s.edges := by
      have h := distance_geometry_gdf_mem ctx st.geometry
        (s.edges.map (fun e => (e.edgeID, e.geometry))) (by simpa using hne)
      simpa [edgeIDs, List.map_map] using h
    simp only [edgeIDs, List.mem_map] at hmem
    obtain ⟨E, hE, hEid⟩ := hmem
    cases hfind : findEdge s.edges (distance_geometry_gdf ctx st.geometry
        (s.edges.map (fun e => (e.edgeID, e.geometry)))).2 with
    | none =>
      exfalso
      have := List.find?_eq_none.mp hfind E hE
      simp [hEid] at this
    | some old =>
      simp [List.length_append]

/-- Witness for the C3 amendment: the snapping branch at the concrete
configuration (node at distance 20, edge at distance 30). -/
theorem C3_attachment_rule_witness :
    (assign_station_step ctxSplit stSnap ⟨nodesSplit, edgesSplit⟩).edges = edgesSplit ∧
    (assign_station_step ctxSplit stSnap ⟨nodesSplit, edgesSplit⟩).nodes.length =
      nodesSplit.length := by
  have h := (C3_attachment_rule ctxSplit stSnap ⟨nodesSplit, edgesSplit⟩).2.1
    (by decide) (by decide)
  exact ⟨h.1, h.2.1⟩

/-- C3 is false as stated: with the nearest node 40 units away (within the
50-unit threshold) but the nearest edge only 30 units away, the code splits
the edge (new node and new edge created) instead of snapping to the node. -/
theorem C3_snap_cex :
    (distance_geometry_gdf ctxSplit stSplit.geometry
        (nodesSplit.map (fun n => (n.nodeID, n.geometry)))).1 = 40 ∧
    ((40 : ℚ) ≤ 50) ∧
    (assign_station_step ctxSplit stSplit ⟨nodesSplit, edgesSplit⟩).nodes.length =
      nodesSplit.length + 1 ∧
    (assign_station_step ctxSplit stSplit ⟨nodesSplit, edgesSplit⟩).edges.length =
      edgesSplit.length + 1 :=
  ⟨by decide, by decide, by decide, by decide⟩

/-- C5: when a station feature splits edge `E`, the new node's ID is the
maximum existing node index plus one and the new edge's ID is the maximum
existing edge index plus one, neither reusing an existing ID; `E` keeps its
`edgeID` with the first half geometry and its `v` endpoint set to the new
node; the new edge carries the second half with `u` equal to the new node;
and the two halves' lengths sum to the original edge's length (the summation
property of the spec-modelled `split_line_at_interpolation` is taken as a
hypothesis on the supplied geometry context). -/
theorem C5_edge_split_allocation {G : Type} [Inhabited G] (ctx : GeomCtx G)
    (st : Station G) (s : GState G) (E : Edge G)
    (hfar : ¬ (50 < (distance_geometry_gdf ctx st.geometry
          (s.nodes.map (fun n => (n.nodeID, n.geometry)))).1 ∧
        50 < (distance_geometry_gdf ctx st.geometry
          (s.edges.map (fun e => (e.edgeID, e.geometry)))).1))
    (hcloser : (distance_geometry_gdf ctx st.geometry
          (s.edges.map (fun e => (e.edgeID, e.geometry)))).1 <
        (distance_geometry_gdf ctx st.geometry
          (s.nodes.map (fun n => (n.nodeID, n.geometry)))).1)
    (hfind : findEdge s.edges (distance_geometry_gdf ctx st.geometry
        (s.edges.map (fun e => (e.edgeID, e.geometry)))).2 = some E)
    (hlen : ctx.length (split_line_at_interpolation ctx st.geometry E.geometry).1.1 +
        ctx.length (split_line_at_interpolation ctx st.geometry E.geometry).1.2 =
        ctx.length E.geometry) :
    (assign_station_step ctx st s).nodes =
      s.nodes ++ [⟨maxNodeID s.nodes + 1,
        (split_line_at_interpolation ctx st.geometry E.geometry).2,
        (ctx.firstCoord (split_line_at_interpolation ctx st.geometry E.geometry).2).1,
        (ctx.firstCoord (split_line_at_interpolation ctx st.geometry E.geometry).2).2,
        st.sIx, st.sname⟩] ∧
    maxNodeID s.nodes + 1 ∉ nodeIDs s.nodes ∧
    maxEdgeID s.edges + 1 ∉ edgeIDs s.edges ∧
    E ∈ s.edges ∧
    { E with geometry := (split_line_at_interpolation ctx st.geometry E.geometry).1.1,
             v := maxNodeID s.nodes + 1 } ∈ (assign_station_step ctx st s).edges ∧
    { E with edgeID := maxEdgeID s.edges + 1,
             geometry := (split_line_at_interpolation ctx st.geometry E.geometry).1.2,
             u := maxNodeID s.nodes + 1 } ∈ (assign_station_step ctx st s).edges ∧
    ctx.length (split_line_at_interpolation ctx st.geometry E.geometry).1.1 +
      ctx.length (split_line_at_interpolation ctx st.geometry E.geometry).1.2 =
      ctx.length E.geometry := by
  have hEmem : E ∈ s.edges := List.mem_of_find?_eq_some hfind
  have hEid : E.edgeID = (distance_geometry_gdf ctx st.geometry
      (s.edges.map (fun e => (e.edgeID, e.geometry)))).2 := by
    have := List.find?_some hfind
    simpa using this
  simp only [assign_station_step]
  rw [if_neg hfar, if_neg (not_le.mpr hcloser), hfind]
  refine ⟨rfl, maxNodeID_succ_fresh s.nodes, maxEdgeID_succ_fresh s.edges, hEmem,
    ?_, ?_, hlen⟩
  · exact List.mem_append_left _ (List.mem_map.mpr ⟨E, hEmem, by rw [if_pos hEid]⟩)
  · exact List.mem_append_right _ (by simp)

/-- Witness for C5 at the concrete splitting configuration: the 100-unit
edge splits into a 60-unit and a 40-unit half. -/
theorem C5_edge_split_allocation_witness :
    (assign_station_step ctxSplit stSplit ⟨nodesSplit, edgesSplit⟩).nodes =
      nodesSplit ++ [⟨maxNodeID nodesSplit + 1,
        (split_line_at_interpolation ctxSplit stSplit.geometry (10 : Nat)).2,
        (ctxSplit.firstCoord (split_line_at_interpolation ctxSplit stSplit.geometry (10 : Nat)).2).1,
        (ctxSplit.firstCoord (split_line_at_interpolation ctxSplit stSplit.geometry (10 : Nat)).2).2,
        stSplit.sIx, stSplit.sname⟩] ∧
    ctxSplit.length (split_line_at_interpolation ctxSplit stSplit.geometry (10 : Nat)).1.1 +
      ctxSplit.length (split_line_at_interpolation ctxSplit stSplit.geometry (10 : Nat)).1.2 =
      ctxSplit.length (10 : Nat) := by
  have h := C5_edge_split_allocation ctxSplit stSplit ⟨nodesSplit, edgesSplit⟩
    ⟨0, 0, 1, 10⟩ (by decide) (by decide) (by decide)
    (by norm_num [split_line_at_interpolation, ctxSplit, constCtx, stSplit])
  exact ⟨h.1, h.2.2.2.2.2.2⟩

/-- One `assign_station_step` keeps every current node's identity, geometry
and position; its `stationID`/`name` are untouched unless it is chosen as a
snap target, in which case its `stationID` becomes the station's
non-sentinel index. -/
lemma assign_station_step_preserves {G : Type} [Inhabited G] (ctx : GeomCtx G)
    (st : Station G) (hst : st.sIx ≠ 999999) (s : GState G) :
    ∀ n ∈ s.nodes, ∃ n2 ∈ (assign_station_step ctx st s).nodes,
      n2.nodeID = n.nodeID ∧ n2.geometry = n.geometry ∧ n2.x = n.x ∧ n2.y = n.y ∧
      ((n2.stationID = n.stationID ∧ n2.name = n.name) ∨ n2.stationID ≠ 999999) := by
  intro n hn
  simp only [assign_station_step]
  split
  · exact ⟨n, hn, rfl, rfl, rfl, rfl, Or.inl ⟨rfl, rfl⟩⟩
  · split
    · refine ⟨_, List.mem_map_of_mem _ hn, ?_⟩
      by_cases hid : n.nodeID = (distance_geometry_gdf ctx st.geometry
          (s.nodes.map (fun n => (n.nodeID, n.geometry)))).2
      · rw [if_pos hid]
        exact ⟨rfl, rfl, rfl, rfl, Or.inr hst⟩
      · rw [if_neg hid]
        exact ⟨rfl, rfl, rfl, rfl, Or.inl ⟨rfl, rfl⟩⟩
    · split
      · exact ⟨n, hn, rfl, rfl, rfl, rfl, Or.inl ⟨rfl, rfl⟩⟩
      · exact ⟨n, List.mem_append_left _ hn, rfl, rfl, rfl, rfl, Or.inl ⟨rfl, rfl⟩⟩

/-- The station loop of `assign_stations_to_nodes` preserves every node of
the starting state up to snap assignments. -/
lemma assign_fold_preserves {G : Type} [Inhabited G] (ctx : GeomCtx G) :
    ∀ (stations : List (Station G)), (∀ st ∈ stations, st.sIx ≠ 999999) →
    ∀ (s : GState G), ∀ n ∈ s.nodes,
      ∃ n2 ∈ (stations.foldl (fun s st => assign_station_step ctx st s) s).nodes,
        n2.nodeID = n.nodeID ∧ n2.geometry = n.geometry ∧ n2.x = n.x ∧ n2.y = n.y ∧
        ((n2.stationID = n.stationID ∧ n2.name = n.name) ∨ n2.stationID ≠ 999999) := by
  intro stations
  induction stations with
  | nil => exact fun _ s n hn => ⟨n, hn, rfl, rfl, rfl, rfl, Or.inl ⟨rfl, rfl⟩⟩
  | cons st sts ih =>
    intro hst s n hn
    obtain ⟨n1, hn1, hid1, hg1, hx1, hy1, hd1⟩ :=
      assign_station_step_preserves ctx st (hst st (by simp)) s n hn
    obtain ⟨n2, hn2, hid2, hg2, hx2, hy2, hd2⟩ :=
      ih (fun st2 h2 => hst st2 (by simp [h2])) (assign_station_step ctx st s) n1 hn1
    refine ⟨n2, hn2, hid2.trans hid1, hg2.trans hg1, hx2.trans hx1, hy2.trans hy1, ?_⟩
    rcases hd2 with ⟨hs2, hm2⟩ | h2
    · rcases hd1 with ⟨hs1, hm1⟩ | h1
      · exact Or.inl ⟨hs2.trans hs1, hm2.trans hm1⟩
      · exact Or.inr (hs2 ▸ h1)
    · exact Or.inr h2

/-- C10: `assign_stations_to_nodes` resets `stationID` to the sentinel
999999 and `name` to `None` on every input node (whatever values the input
carried); every node that no station snaps onto leaves the operation with
the sentinel `stationID` and a null name, its `nodeID`, geometry and
position unchanged, and a node that was chosen carries a non-sentinel
`stationID` (again with identity, geometry and position unchanged). -/
theorem C10_frame_reset {G : Type} [Inhabited G] (ctx : GeomCtx G)
    (stations : List (Station G)) (nodes : List (Node G)) (edges : List (Edge G))
    (hst : ∀ st ∈ stations, st.sIx ≠ 999999)
    (hxy : ∀ n ∈ nodes, n.x = (ctx.firstCoord n.geometry).1 ∧
      n.y = (ctx.firstCoord n.geometry).2) :
    ∀ n ∈ nodes, ∃ n2 ∈ (assign_stations_to_nodes ctx stations nodes edges).1,
      n2.nodeID = n.nodeID ∧ n2.geometry = n.geometry ∧ n2.x = n.x ∧ n2.y = n.y ∧
      ((n2.stationID = 999999 ∧ n2.name = none) ∨ n2.stationID ≠ 999999) := by
  intro n hn
  have hn0 : ({ n with stationID := 999999, name := none } : Node G) ∈
      nodes.map (fun n => { n with stationID := 999999, name := none }) :=
    List.mem_map_of_mem _ hn
  obtain ⟨n1, hn1, hid, hg, hx, hy, hd⟩ := assign_fold_preserves ctx stations hst
    ⟨nodes.map (fun n => { n with stationID := 999999, name := none }), edges⟩ _ hn0
  simp only [assign_stations_to_nodes]
  have hmem2 := List.mem_map_of_mem (fun m => { m with x := (ctx.firstCoord m.geometry).1, y := (ctx.firstCoord m.geometry).2 }) hn1
  refine ⟨_, hmem2, hid, hg, ?_, ?_, ?_⟩
  · show (ctx.firstCoord n1.geometry).1 = n.x
    rw [hg]
    exact ((hxy n hn).1).symm
  · show (ctx.firstCoord n1.geometry).2 = n.y
    rw [hg]
    exact ((hxy n hn).2).symm
  · rcases hd with ⟨hs, hm⟩ | h
    · exact Or.inl ⟨hs, hm⟩
    · exact Or.inr h

/-- Witness for C10: the untouched node `1` of the snap scenario leaves the
operation with the sentinel `stationID`, a null name and unchanged fields. -/
theorem C10_frame_reset_witness :
    ∃ n2 ∈ (assign_stations_to_nodes ctxSplit [stSnap] nodesSplit edgesSplit).1,
      n2.nodeID = 1 ∧ n2.geometry = 2 ∧ n2.x = 2 ∧ n2.y = 0 ∧
      ((n2.stationID = 999999 ∧ n2.name = none) ∨ n2.stationID ≠ 999999) :=
  C10_frame_reset ctxSplit [stSnap] nodesSplit edgesSplit (by decide)
    (by decide) ⟨1, 2, 2, 0, 999999, none⟩ (by decide)

/-- A map that changes neither `nodeID` nor `stationID` leaves every
`stationIDof` lookup unchanged. -/
lemma stationIDof_map {G : Type} (l : List (Node G)) (f : Node G → Node G)
    (hf : ∀ n, (f n).nodeID = n.nodeID ∧ (f n).stationID = n.stationID)
    (i : Nat) : stationIDof (l.map f) i = stationIDof l i := by
  induction l with
  | nil => rfl
  | cons a t ih =>
    rw [List.map_cons]
    unfold stationIDof findNode
    by_cases hai : a.nodeID = i
    · rw [List.find?_cons_of_pos _ (by simp [(hf a).1, hai]),
        List.find?_cons_of_pos _ (by simp [hai])]
      simp [(hf a).2]
    · rw [List.find?_cons_of_neg _ (by simp [(hf a).1, hai]),
        List.find?_cons_of_neg _ (by simp [hai])]
      exact ih

/-- A map that does not change `nodeID` leaves the ID list unchanged. -/
lemma nodeIDs_map {G : Type} (l : List (Node G)) (f : Node G → Node G)
    (hf : ∀ n, (f n).nodeID = n.nodeID) : nodeIDs (l.map f) = nodeIDs l := by
  simp only [nodeIDs, List.map_map]
  exact List.map_congr_left (fun n _ => hf n)

/-- A non-sentinel `stationIDof` lookup names a real node. -/
lemma mem_of_stationIDof_ne {G : Type} (l : List (Node G)) (i : Nat)
    (h : stationIDof l i ≠ 999999) : i ∈ nodeIDs l := by
  unfold stationIDof at h
  cases hf : findNode l i with
  | none => rw [hf] at h; simp at h
  | some n =>
    have hm := List.mem_of_find?_eq_some hf
    have hi := List.find?_some hf
    simp only [decide_eq_true_eq] at hi
    exact hi ▸ List.mem_map_of_mem _ hm

/-- Applying one merge (survivor `sv`, dropped `d`, new position `c`)
preserves the merge invariant, provided the survivor is a station-assigned
node of the table and the dropped node carries the sentinel. -/
lemma merge_apply_inv {G : Type} (nodes0 : List (Node G)) (s : DState G)
    (sv d : Nat) (c : G) (hsv_mem : sv ∈ nodeIDs nodes0)
    (hsv : stationIDof s.nodes sv ≠ 999999)
    (hd : stationIDof s.nodes d = 999999) (hinv : mergeInv nodes0 s) :
    mergeInv nodes0
      ⟨s.nodes.map (fun n => if n.nodeID = sv then { n with geometry := c } else n),
       s.edges.map (fun e => { e with u := if e.u = d then sv else e.u,
                                      v := if e.v = d then sv else e.v }),
       s.toDrop ++ [d]⟩ := by
  obtain ⟨hids, hst, hdrop, hedges⟩ := hinv
  have hf : ∀ n : Node G,
      ((if n.nodeID = sv then { n with geometry := c } else n) : Node G).nodeID = n.nodeID ∧
      ((if n.nodeID = sv then { n with geometry := c } else n) : Node G).stationID = n.stationID := by
    intro n
    by_cases h : n.nodeID = sv <;> simp [h]
  have hsv_nd : sv ∉ s.toDrop ++ [d] := by
    intro hmem
    rcases List.mem_append.mp hmem with h | h
    · exact hsv ((hst sv).trans (hdrop sv h))
    · have hh : sv = d := by simpa using h
      exact hsv (hh ▸ hd)
  refine ⟨?_, ?_, ?_, ?_⟩
  · rw [nodeIDs_map _ _ (fun n => (hf n).1)]
    exact hids
  · intro i
    rw [stationIDof_map _ _ hf i]
    exact hst i
  · intro i hi
    rcases List.mem_append.mp hi with h | h
    · exact hdrop i h
    · have hh : i = d := by simpa using h
      subst hh
      rw [← hst i]
      exact hd
  · intro e he
    obtain ⟨e0, he0, rfl⟩ := List.mem_map.mp he
    have h0 := hedges e0 he0
    constructor
    · show (if e0.u = d then sv else e0.u) ∈ nodeIDs nodes0 ∧
        (if e0.u = d then sv else e0.u) ∉ s.toDrop ++ [d]
      by_cases hud : e0.u = d
      · rw [if_pos hud]
        exact ⟨hsv_mem, hsv_nd⟩
      · rw [if_neg hud]
        refine ⟨h0.1.1, fun hmem => ?_⟩
        rcases List.mem_append.mp hmem with h | h
        · exact h0.1.2 h
        · exact hud (by simpa using h)
    · show (if e0.v = d then sv else e0.v) ∈ nodeIDs nodes0 ∧
        (if e0.v = d then sv else e0.v) ∉ s.toDrop ++ [d]
      by_cases hvd : e0.v = d
      · rw [if_pos hvd]
        exact ⟨hsv_mem, hsv_nd⟩
      · rw [if_neg hvd]
        refine ⟨h0.2.1, fun hmem => ?_⟩
        rcases List.mem_append.mp hmem with h | h
        · exact h0.2.2 h
        · exact hvd (by simpa using h)

/-- One iteration of the `merge_station_nodes` loop preserves the merge
invariant. -/
lemma merge_step_inv {G : Type} [Inhabited G] (ctx : GeomCtx G) (tol : ℚ)
    (nodes0 : List (Node G)) (s : DState G) (row : Edge G)
    (hrow : row.u ∈ nodeIDs nodes0 ∧ row.v ∈ nodeIDs nodes0)
    (hinv : mergeInv nodes0 s) : mergeInv nodes0 (merge_step ctx tol s row) := by
  simp only [merge_step]
  split
  · exact hinv
  · split
    · next hc =>
      by_cases hu : stationIDof s.nodes row.u ≠ 999999
      · simp only [if_pos hu]
        have hdv : stationIDof s.nodes row.v = 999999 := by
          rcases hc.2 with h | h
          · exact absurd h hu
          · exact h
        exact merge_apply_inv nodes0 s row.u row.v _ hrow.1 hu hdv hinv
      · have hu' : stationIDof s.nodes row.u = 999999 := not_not.mp hu
        have hv : stationIDof s.nodes row.v ≠ 999999 := fun h => hc.1 (hu'.trans h.symm)
        simp only [if_neg hu]
        exact merge_apply_inv nodes0 s row.v row.u _ hrow.2 hv hu' hinv
    · exact hinv

/-- The whole `merge_station_nodes` loop preserves the merge invariant. -/
lemma merge_fold_inv {G : Type} [Inhabited G] (ctx : GeomCtx G) (tol : ℚ)
    (nodes0 : List (Node G)) :
    ∀ (rows : List (Edge G)),
      (∀ r ∈ rows, r.u ∈ nodeIDs nodes0 ∧ r.v ∈ nodeIDs nodes0) →
      ∀ (s0 : DState G), mergeInv nodes0 s0 →
      mergeInv nodes0 (rows.foldl (merge_step ctx tol) s0) := by
  intro rows
  induction rows with
  | nil => exact fun _ s0 h0 => h0
  | cons r t ih =>
    intro hrows s0 h0
    exact ih (fun q hq => hrows q (List.mem_cons_of_mem _ hq)) _
      (merge_step_inv ctx tol nodes0 s0 r (hrows r (List.mem_cons_self r t)) h0)

/-- The node IDs surviving `merge_finalize` are those of the state's nodes
not in `to_drop`. -/
lemma nodeIDs_merge_finalize {G : Type} [Inhabited G] (ctx : GeomCtx G)
    (s : DState G) :
    nodeIDs (merge_finalize ctx s).1 =
      nodeIDs (s.nodes.filter (fun n => n.nodeID ∉ s.toDrop)) := by
  have h1 : (merge_finalize ctx s).1 =
      (s.nodes.filter (fun n => n.nodeID ∉ s.toDrop)).map
        (fun n => { n with x := (ctx.firstCoord n.geometry).1,
                           y := (ctx.firstCoord n.geometry).2 }) := rfl
  rw [h1, nodeIDs_map]
  intro n
  rfl

/-- A surviving node ID stays in the filtered table. -/
lemma mem_nodeIDs_filter_toDrop {G : Type} (l : List (Node G)) (tds : List Nat)
    (i : Nat) (hi : i ∈ nodeIDs l) (hnd : i ∉ tds) :
    i ∈ nodeIDs (l.filter (fun n => n.nodeID ∉ tds)) := by
  simp only [nodeIDs, List.mem_map] at hi ⊢
  obtain ⟨n, hn, rfl⟩ := hi
  exact ⟨n, List.mem_filter.mpr ⟨hn, by simpa using hnd⟩, rfl⟩

/-- Every edge of a `merge_finalize` result has the endpoints of some edge
of the state. -/
lemma merge_finalize_edges_mem {G : Type} [Inhabited G] (ctx : GeomCtx G)
    (s : DState G) (e : Edge G) (he : e ∈ (merge_finalize ctx s).2) :
    ∃ e0 ∈ s.edges, e.u = e0.u ∧ e.v = e0.v := by
  have h2 : (merge_finalize ctx s).2 =
      (correct_edges ctx
        ((s.nodes.filter (fun n => n.nodeID ∉ s.toDrop)).map
          (fun n => { n with x := (ctx.firstCoord n.geometry).1,
                             y := (ctx.firstCoord n.geometry).2 }))
        (s.edges.filter (fun e => ¬ (e.u ∈ s.toDrop ∧ e.v ∈ s.toDrop)))).filter
      (fun e => ¬ (e.u = e.v ∧ ctx.length e.geometry < 1)) := rfl
  rw [h2] at he
  have he1 := (List.mem_filter.mp he).1
  simp only [correct_edges, List.mem_map] at he1
  obtain ⟨e1, he1, rfl⟩ := he1
  exact ⟨e1, (List.mem_filter.mp he1).1, rfl, rfl⟩

/-- C6: over any tolerance (the default is 40), (1) after
`merge_station_nodes` every remaining edge references only remaining nodes
— no edge references a dropped node; (2) every station-assigned node
survives (only sentinel nodes are dropped); (3) each qualifying loop
iteration (edge no longer than the tolerance, endpoint `stationID`s
different, one of them the sentinel) merges the sentinel node into the
station-assigned one: the survivor's position becomes the centroid of the
two current node positions, every edge referencing the dropped node is
rewired to the survivor, and the dropped node is recorded for removal. -/
theorem C6_merge_rewires {G : Type} [Inhabited G] (ctx : GeomCtx G)
    (nodes : List (Node G)) (edges : List (Edge G)) (tol : ℚ)
    (huv : ∀ e ∈ edges, e.u ∈ nodeIDs nodes ∧ e.v ∈ nodeIDs nodes) :
    (∀ e ∈ (merge_station_nodes ctx nodes edges tol).2,
        e.u ∈ nodeIDs (merge_station_nodes ctx nodes edges tol).1 ∧
        e.v ∈ nodeIDs (merge_station_nodes ctx nodes edges tol).1) ∧
    (∀ i, stationIDof nodes i ≠ 999999 →
        i ∈ nodeIDs (merge_station_nodes ctx nodes edges tol).1) ∧
    (∀ (s : DState G) (row : Edge G),
        ctx.length row.geometry ≤ tol →
        stationIDof s.nodes row.u ≠ stationIDof s.nodes row.v →
        (stationIDof s.nodes row.u = 999999 ∨ stationIDof s.nodes row.v = 999999) →
        ∃ sv d, (sv = row.u ∨ sv = row.v) ∧ (d = row.u ∨ d = row.v) ∧
          stationIDof s.nodes sv ≠ 999999 ∧ stationIDof s.nodes d = 999999 ∧
          (merge_step ctx tol s row).toDrop = s.toDrop ++ [d] ∧
          (merge_step ctx tol s row).edges = s.edges.map (fun e =>
            { e with u := if e.u = d then sv else e.u,
                     v := if e.v = d then sv else e.v }) ∧
          (merge_step ctx tol s row).nodes = s.nodes.map (fun n =>
            if n.nodeID = sv then
              { n with geometry := ctx.centroid2 (geomOfNode s.nodes row.u) (geomOfNode s.nodes row.v) }
            else n)) := by
  have h0 : mergeInv nodes ⟨nodes, edges, []⟩ :=
    ⟨rfl, fun _ => rfl, by simp,
     fun e he => ⟨⟨(huv e he).1, by simp⟩, ⟨(huv e he).2, by simp⟩⟩⟩
  have hinv := merge_fold_inv ctx tol nodes edges huv ⟨nodes, edges, []⟩ h0
  have hout : merge_station_nodes ctx nodes edges tol =
      merge_finalize ctx (edges.foldl (merge_step ctx tol) ⟨nodes, edges, []⟩) := rfl
  refine ⟨?_, ?_, ?_⟩
  · intro e he
    rw [hout] at he ⊢
    obtain ⟨e0, he0, hu, hv⟩ := merge_finalize_edges_mem ctx _ e he
    have h4 := hinv.2.2.2 e0 he0
    rw [nodeIDs_merge_finalize, hu, hv]
    exact ⟨mem_nodeIDs_filter_toDrop _ _ _ (hinv.1 ▸ h4.1.1) h4.1.2,
      mem_nodeIDs_filter_toDrop _ _ _ (hinv.1 ▸ h4.2.1) h4.2.2⟩
  · intro i hi
    rw [hout, nodeIDs_merge_finalize]
    have hmem : i ∈ nodeIDs nodes := mem_of_stationIDof_ne nodes i hi
    have hnd : i ∉ (edges.foldl (merge_step ctx tol) ⟨nodes, edges, []⟩).toDrop :=
      fun h => hi (hinv.2.2.1 i h)
    exact mem_nodeIDs_filter_toDrop _ _ _ (hinv.1 ▸ hmem) hnd
  · intro s row hlen hne hor
    simp only [merge_step]
    rw [if_neg (not_lt.mpr hlen), if_pos (And.intro hne hor)]
    by_cases hu : stationIDof s.nodes row.u ≠ 999999
    · have hdv : stationIDof s.nodes row.v = 999999 := by
        rcases hor with h | h
        · exact absurd h hu
        · exact h
      refine ⟨row.u, row.v, Or.inl rfl, Or.inr rfl, hu, hdv, ?_, ?_, ?_⟩
      · simp [hu]
      · simp [hu]
      · simp [hu]
    · have hu' : stationIDof s.nodes row.u = 999999 := not_not.mp hu
      have hv : stationIDof s.nodes row.v ≠ 999999 := fun h => hne (hu'.trans h.symm)
      refine ⟨row.v, row.u, Or.inr rfl, Or.inl rfl, hv, hu', ?_, ?_, ?_⟩
      · simp [hu]
      · simp [hu]
      · simp [hu]

/-- Witness for C6 at the concrete two-node merge: the station node survives
and the remaining edges reference surviving nodes. -/
theorem C6_merge_rewires_witness :
    (∀ e ∈ (merge_station_nodes ctxC6 nodesC6 edgesC6 40).2,
        e.u ∈ nodeIDs (merge_station_nodes ctxC6 nodesC6 edgesC6 40).1 ∧
        e.v ∈ nodeIDs (merge_station_nodes ctxC6 nodesC6 edgesC6 40).1) ∧
    (1 : Nat) ∈ nodeIDs (merge_station_nodes ctxC6 nodesC6 edgesC6 40).1 := by
  have h := C6_merge_rewires ctxC6 nodesC6 edgesC6 40 (by decide)
  exact ⟨h.1, h.2.1 1 (by decide)⟩

/-- A merge iteration never changes the number of node rows (dropping
happens only in `merge_finalize`). -/
lemma merge_step_nodes_length {G : Type} [Inhabited G] (ctx : GeomCtx G)
    (tol : ℚ) (s : DState G) (row : Edge G) :
    (merge_step ctx tol s row).nodes.length = s.nodes.length := by
  simp only [merge_step]
  split
  · rfl
  · split
    · simp
    · rfl

/-- A name-merge iteration never changes the number of node rows. -/
lemma simplify_step_nodes_length {G : Type} [Inhabited G] (ctx : GeomCtx G)
    (s : DState G) (ix : Nat) :
    (simplify_step ctx s ix).nodes.length = s.nodes.length := by
  simp only [simplify_step]
  split
  · rfl
  · split
    · simp
    · rfl

lemma merge_fold_nodes_length {G : Type} [Inhabited G] (ctx : GeomCtx G)
    (tol : ℚ) :
    ∀ (rows : List (Edge G)) (s0 : DState G),
      (rows.foldl (merge_step ctx tol) s0).nodes.length = s0.nodes.length := by
  intro rows
  induction rows with
  | nil => exact fun _ => rfl
  | cons r t ih =>
    intro s0
    exact (ih _).trans (merge_step_nodes_length ctx tol s0 r)

lemma simplify_fold_nodes_length {G : Type} [Inhabited G] (ctx : GeomCtx G) :
    ∀ (ixs : List Nat) (s0 : DState G),
      (ixs.foldl (simplify_step ctx) s0).nodes.length = s0.nodes.length := by
  intro ixs
  induction ixs with
  | nil => exact fun _ => rfl
  | cons r t ih =>
    intro s0
    exact (ih _).trans (simplify_step_nodes_length ctx s0 r)

lemma merge_finalize_nodes_length_le {G : Type} [Inhabited G] (ctx : GeomCtx G)
    (s : DState G) : (merge_finalize ctx s).1.length ≤ s.nodes.length := by
  have h1 : (merge_finalize ctx s).1 =
      (s.nodes.filter (fun n => n.nodeID ∉ s.toDrop)).map
        (fun n => { n with x := (ctx.firstCoord n.geometry).1,
                           y := (ctx.firstCoord n.geometry).2 }) := rfl
  rw [h1, List.length_map]
  exact List.length_filter_le _ _

lemma simplify_stations_nodes_le {G : Type} [Inhabited G] (ctx : GeomCtx G)
    (nodes : List (Node G)) (edges : List (Edge G)) :
    (simplify_stations ctx nodes edges).1.length ≤ nodes.length := by
  have h : simplify_stations ctx nodes edges =
      merge_finalize ctx ((edgeIDs edges).foldl (simplify_step ctx) ⟨nodes, edges, []⟩) := rfl
  rw [h]
  exact le_of_le_of_eq (merge_finalize_nodes_length_le ctx _)
    (simplify_fold_nodes_length ctx (edgeIDs edges) ⟨nodes, edges, []⟩)

lemma merge_station_nodes_nodes_le {G : Type} [Inhabited G] (ctx : GeomCtx G)
    (nodes : List (Node G)) (edges : List (Edge G)) (tol : ℚ) :
    (merge_station_nodes ctx nodes edges tol).1.length ≤ nodes.length := by
  have h : merge_station_nodes ctx nodes edges tol =
      merge_finalize ctx (edges.foldl (merge_step ctx tol) ⟨nodes, edges, []⟩) := rfl
  rw [h]
  exact le_of_le_of_eq (merge_finalize_nodes_length_le ctx _)
    (merge_fold_nodes_length ctx tol edges ⟨nodes, edges, []⟩)

/-- C4 (amended): `dissolve_stations` applies the name-identity pass, the
tolerance pass and a final name-identity pass exactly once each — there is
no convergence loop — and the node count never increases. -/
theorem C4_node_count_nonincreasing {G : Type} [Inhabited G] (ctx : GeomCtx G)
    (nodes : List (Node G)) (edges : List (Edge G)) :
    (dissolve_stations ctx nodes edges).1.length ≤ nodes.length := by
  simp only [dissolve_stations]
  exact le_trans (simplify_stations_nodes_le ctx _ _)
    (le_trans (merge_station_nodes_nodes_le ctx _ _ 40)
      (simplify_stations_nodes_le ctx nodes edges))

/-- C4 is false as stated: on a three-node chain with two short edges,
`dissolve_stations` leaves two nodes, and applying it to its own output
merges again, down to one node — the output is not a fixed point. -/
theorem C4_not_fixed_point_cex :
    (dissolve_stations ctxC4 nodesC4 edgesC4).1.length = 2 ∧
    (dissolve_stations ctxC4
        (dissolve_stations ctxC4 nodesC4 edgesC4).1
        (dissolve_stations ctxC4 nodesC4 edgesC4).2).1.length = 1 :=
  ⟨by decide, by decide⟩

/-- C8: the edge table produced by graph construction contains no edge whose
endpoints coincide with geometric length below 1.0, and every self-loop of
length at least 1.0 surviving deduplication is retained. -/
theorem C8_no_short_self_loops {G : Type} (ctx : GeomCtx G)
    (nodes : List (Node G)) (edges0 : List (Edge G)) :
    (∀ e ∈ gdfs_from_railways_edges ctx nodes edges0,
        ¬ (e.u = e.v ∧ ctx.length e.geometry < 1)) ∧
    (∀ r ∈ (railways_prepared ctx nodes edges0).2, r.u = r.v →
        1 ≤ ctx.length r.geometry →
        r.toEdge ∈ gdfs_from_railways_edges ctx nodes edges0) := by
  constructor
  · intro e he
    simp only [gdfs_from_railways_edges, List.mem_map] at he
    obtain ⟨r, hr, rfl⟩ := he
    have h2 := (List.mem_filter.mp hr).2
    simp only [decide_eq_true_eq] at h2
    simpa [REdge.toEdge] using h2
  · intro r hr huv hlen
    refine List.mem_map_of_mem _ (List.mem_filter.mpr ⟨hr, ?_⟩)
    simp [huv, not_lt.mpr hlen]

/-- Witness for C8: a 5-unit self-loop survives the final filter. -/
theorem C8_no_short_self_loops_witness :
    rC8.toEdge ∈ gdfs_from_railways_edges ctxC8 nodesC8 edges0C8 :=
  (C8_no_short_self_loops ctxC8 nodesC8 edges0C8).2 rC8 (by decide) (by decide)
    (by norm_num [rC8, ctxC8, constCtx])

/-- C9 (amended): for a station row and a candidate edge, the split is
skipped when any other station — of any name — lies strictly closer to the
split point than this station does, or when the edge already ends at a node
carrying this station's name; otherwise the edge is split: the edge count
grows by one and a fresh edge (ID `max + 1`) carrying the second half and
starting at the station's node is appended. -/
theorem C9_extend_skip_rule {G : Type} [Inhabited G] (ctx : GeomCtx G)
    (stRow : Node G) (s : GState G) (eix : Nat) (e : Edge G)
    (hfind : findEdge s.edges eix = some e) :
    ((distance_geometry_gdf ctx
        (split_line_at_interpolation ctx stRow.geometry e.geometry).2
        ((s.nodes.filter (fun n => n.stationID ≠ 999999 ∧ n.nodeID ≠ stRow.nodeID)).map
          (fun n => (n.nodeID, n.geometry)))).1 <
      ctx.dist (split_line_at_interpolation ctx stRow.geometry e.geometry).2 stRow.geometry →
      extend_step ctx stRow s eix = s) ∧
    (¬ ((distance_geometry_gdf ctx
        (split_line_at_interpolation ctx stRow.geometry e.geometry).2
        ((s.nodes.filter (fun n => n.stationID ≠ 999999 ∧ n.nodeID ≠ stRow.nodeID)).map
          (fun n => (n.nodeID, n.geometry)))).1 <
      ctx.dist (split_line_at_interpolation ctx stRow.geometry e.geometry).2 stRow.geometry) →
     (nameOfNode s.nodes e.u = stRow.name ∨ nameOfNode s.nodes e.v = stRow.name) →
      extend_step ctx stRow s eix = s) ∧
    (¬ ((distance_geometry_gdf ctx
        (split_line_at_interpolation ctx stRow.geometry e.geometry).2
        ((s.nodes.filter (fun n => n.stationID ≠ 999999 ∧ n.nodeID ≠ stRow.nodeID)).map
          (fun n => (n.nodeID, n.geometry)))).1 <
      ctx.dist (split_line_at_interpolation ctx stRow.geometry e.geometry).2 stRow.geometry) →
     ¬ (nameOfNode s.nodes e.u = stRow.name ∨ nameOfNode s.nodes e.v = stRow.name) →
      (extend_step ctx stRow s eix).edges.length = s.edges.length + 1 ∧
      ({ e with edgeID := maxEdgeID s.edges + 1,
                geometry := (split_line_at_interpolation ctx stRow.geometry e.geometry).1.2,
                u := stRow.nodeID } ∈ (extend_step ctx stRow s eix).edges) ∧
      maxEdgeID s.edges + 1 ∉ edgeIDs s.edges) := by
  refine ⟨fun hskip => ?_, fun hns hname => ?_, fun hns hname => ?_⟩
  · simp only [extend_step, hfind]
    rw [if_pos hskip]
  · simp only [extend_step, hfind]
    rw [if_neg hns, if_pos hname]
  · simp only [extend_step, hfind]
    rw [if_neg hns, if_neg hname]
    refine ⟨by simp, List.mem_append_right _ (by simp), maxEdgeID_succ_fresh s.edges⟩

/-- Witness for the C9 amendment: at the concrete configuration the step is
skipped because the differently named station 2 is closer to the split
point. -/
theorem C9_extend_skip_rule_witness :
    extend_step ctxC9 stRowC9 ⟨nodesC9, edgesC9⟩ 0 = ⟨nodesC9, edgesC9⟩ :=
  (C9_extend_skip_rule ctxC9 stRowC9 ⟨nodesC9, edgesC9⟩ 0 ⟨0, 3, 4, 10⟩
    (by decide)).1 (by decide)

/-- C9 is false as stated: the edge intersects station 1's 25-unit buffer,
does not terminate at station 1, and no station of the same name exists
besides station 1 itself, yet `extend_stations` performs no split (the
output still has the single original edge, because the differently named
station 2 is closer to the would-be split point). -/
theorem C9_extend_skip_cex :
    ctxC9.intersects (10 : Nat) (ctxC9.buffer 1 25) = true ∧
    ((3 : Nat) ≠ 1 ∧ (4 : Nat) ≠ 1) ∧
    nodesC9.filter (fun n => n.name = some "A") = [⟨1, 1, 1, 0, 5, some "A"⟩] ∧
    (extend_stations ctxC9 nodesC9 edgesC9).2 = [⟨0, 3, 4, 10⟩] ∧
    (extend_stations ctxC9 nodesC9 edgesC9).1.length = 4 :=
  ⟨by decide, by decide, by decide, by decide, by decide⟩
